import Mathlib

set_option maxHeartbeats 1000000

/-!
Verification of the amplog content generation engine.

The development shallowly embeds `src/generator/contentGenerator.ts`
(the `ContentGenerator` class) together with the string machinery it
relies on (Node `path` helpers and the literal regular expressions of
the source).  External collaborators (the markdown renderer `marked`,
the Handlebars template manager, the AMP generator, gray-matter front
matter parsing and the config file loader) are modelled as parameters:
a file-system tree carries each file's already-split front matter and
body, each directory carries its already-parsed `_config.yml` mapping,
and an `Env` record carries the markdown renderer, the template
rendering function and an oracle telling which AMP generations throw.
-/

/-- JS truthiness of an optional string field: a missing key, an
`undefined` value and the empty string are all falsy. -/
def truthy : Option String → Bool
  | none => false
  | some s => !s.isEmpty

/-- One field of an `Object.assign` merge: the override value wins
whenever its key is present, otherwise the base value is kept. -/
def ovr (o b : Option String) : Option String :=
  match o with
  | some v => some v
  | none => b

/-- The `Object.assign` merge on the free-form part of a configuration mapping:
keys of the override shadow keys of the base. -/
def mergeExtra (over base : List (String × String)) : List (String × String) :=
  over ++ base.filter (fun p => !(over.any (fun q => q.1 == p.1)))

/-- Node `path.join` restricted to the argument shapes the engine
produces (plain segments without trailing slashes, the root segment
`"/"`, and possibly empty segments): empty parts are dropped and the
remaining parts are joined with a single `/`. -/
def pathJoin (a b : String) : String :=
  if a = "" then b
  else if b = "" then a
  else if a.data.getLast? = some '/' then a ++ b
  else a ++ "/" ++ b

/-- Node `path.basename` on the paths the engine builds (no trailing
slash): the part after the last `/`. -/
def basename (p : String) : String :=
  String.mk ((p.data.reverse.takeWhile (fun c => c ≠ '/')).reverse)

/-- JS `s.replace(/^\//, "")`: drop one leading slash if present. -/
def stripLeadingSlash (s : String) : String :=
  match s.data with
  | '/' :: rest => String.mk rest
  | _ => s

/-- First occurrence replacement on character lists, the semantics of
JS `String.prototype.replace` with a plain-string pattern.  An empty
pattern matches at position 0 (as in JS); the replacement is inserted
verbatim (none of the replacement strings the engine builds use the
JS `$`-escapes). -/
def listReplaceFirst (cs pat repl : List Char) : List Char :=
  match cs with
  | [] => if pat.isEmpty then repl else []
  | c :: rest =>
    if pat.isPrefixOf (c :: rest) then repl ++ (c :: rest).drop pat.length
    else c :: listReplaceFirst rest pat repl

/-- JS `s.replace(pat, repl)` with a plain-string pattern: replace the
first occurrence of `pat`, or return `s` unchanged if absent. -/
def replaceFirst (s pat repl : String) : String :=
  String.mk (listReplaceFirst s.data pat.data repl.data)

/-- JS `\w`: ASCII letters, digits and underscore. -/
def isWordChar (c : Char) : Bool := c.isAlphanum || c = '_'

/-- JS `str.replace(/\.[\w]+$/, "")`: strip a final dot followed by
one or more word characters (the file extension). -/
def stripExtension (s : String) : String :=
  let revCs := s.data.reverse
  let wordPart := revCs.takeWhile (fun c => isWordChar c)
  match revCs.drop wordPart.length with
  | '.' :: t => if wordPart.isEmpty then s else String.mk t.reverse
  | _ => s

/-- Node `path.extname` on a bare file name: the suffix from the last
dot, or `""` when there is no dot or the only dot is the leading
character (dot-files have no extension). -/
def extname (f : String) : String :=
  let cs := f.data
  let afterDot := cs.reverse.takeWhile (fun c => c ≠ '.')
  if afterDot.length = cs.length then ""
  else if cs.length - afterDot.length - 1 = 0 then ""
  else String.mk (cs.drop (cs.length - afterDot.length - 1))

/-- JS `path.extname(f).substr(1)`: the extension without its dot. -/
def extNoDot (f : String) : String := (extname f).drop 1

/-- The 10-character shape `\d{4}-\d{2}-\d{2}` of the shared date/slug
regular expression `/(\d{4}-\d{2}-\d{2})?[_|-]?(.*)/`. -/
def isDateChars (cs : List Char) : Bool :=
  match cs with
  | [a, b, c, d, e, f, g, h, i, j] =>
    a.isDigit && b.isDigit && c.isDigit && d.isDigit && e = '-' &&
      f.isDigit && g.isDigit && h = '-' && i.isDigit && j.isDigit
  | _ => false

/-- Greedy match of the optional leading date group `(\d{4}-\d{2}-\d{2})?`
at position 0: the first ten characters and the remainder when they
have the date shape. -/
def matchDateLead (cs : List Char) : Option (List Char × List Char) :=
  if isDateChars (cs.take 10) then some (cs.take 10, cs.drop 10) else none

/-- The separator class `[_|-]` of the source regular expressions
(note that it literally contains `|` as a third separator). -/
def isSepChar (c : Char) : Bool := c = '_' || c = '|' || c = '-'

/-- The match groups of `/(\d{4}-\d{2}-\d{2})?[_|-]?(.*)/` applied at
position 0 (where it always succeeds, all parts being optional): the
optional date group and the remainder group.  This is the pattern of
`ContentGenerator.generate` (directory basenames) and of
`ContentGenerator.renderContentFile` (extension-stripped file names,
whose extra trailing `\.?` matches the empty string because `(.*)` is
greedy). -/
def dateSlugMatch (s : String) : Option String × String :=
  match matchDateLead s.data with
  | some (d, rest) =>
    let rest2 := match rest with
      | c :: t => if isSepChar c then t else rest
      | [] => []
    (some (String.mk d), String.mk rest2)
  | none =>
    let rest2 := match s.data with
      | c :: t => if isSepChar c then t else s.data
      | [] => []
    (none, String.mk rest2)

theorem dateSlugMatch_sample_dash :
    dateSlugMatch "2024-01-05-hello-world" = (some "2024-01-05", "hello-world") := by
  decide

theorem dateSlugMatch_sample_plain :
    dateSlugMatch "widget" = (none, "widget") := by
  decide

/-- The negated character class `[^"\/\:]` shared by both asset
reference rewrites of `ContentGenerator.parseContentFile`: any
character other than a double quote, a slash and a colon. -/
def isBareChar (c : Char) : Bool := c ≠ '"' && c ≠ '/' && c ≠ ':'

/-- JS `.` in a regular expression: any character but a line break. -/
def notNewline (c : Char) : Bool := c ≠ '\n' && c ≠ '\r'

/-- Index of the last `')'` in a character list, if any. -/
def lastParen : List Char → Option Nat
  | [] => none
  | c :: rest =>
    match lastParen rest with
    | some i => some (i + 1)
    | none => if c = ')' then some 0 else none

/-- The replacement target of both rewrites:
`path.join("/", pageConfig.path, filename)`. -/
def refJoin (path : String) (filename : List Char) : List Char :=
  (pathJoin (pathJoin "/" path) (String.mk filename)).data

/-- Backtracking of `/!\[.+\]\(([^"\/\:]+)\)/` after the leading `![`
has matched: `k + 1` is the number of characters currently consumed by
the greedy `.+` (tried longest first); on success, returns the full
match text, the capture group and the remainder after the match.  The
literal-character tests of the pattern are written as explicit
conditions so the definition can be reasoned about by cases. -/
def tryMdAt (body : List Char) : Nat → Option (List Char × List Char × List Char)
  | 0 => none
  | k + 1 =>
    match body.drop (k + 1) with
    | d :: e :: r2 =>
      if d = ']' ∧ e = '(' then
        match lastParen (r2.takeWhile isBareChar) with
        | some m =>
          if 1 ≤ m then
            some ('!' :: '[' :: (body.take (k + 1)
                    ++ ']' :: '(' :: ((r2.takeWhile isBareChar).take m ++ [')'])),
                  (r2.takeWhile isBareChar).take m, r2.drop (m + 1))
          else tryMdAt body k
        | none => tryMdAt body k
      else tryMdAt body k
    | _ => tryMdAt body k

/-- JS `markdownContent.replace(/!\[.+\]\(([^"\/\:]+)\)/, m => m.replace(filename, path.join("/", path, filename)))`:
find the leftmost match (greedy, backtracking), replace the first
occurrence of the captured file name inside the matched text by the
path-joined reference, leave the remainder untouched (the pattern has
no `g` flag, so at most one replacement happens).  A failed attempt at
a `![` advances the scan by one character, exactly as the regex engine
does. -/
def rewriteMdImage (path : String) : List Char → List Char
  | [] => []
  | c :: rest =>
    if c = '!' then
      match rest with
      | c2 :: body =>
        if c2 = '[' then
          match tryMdAt body (body.takeWhile notNewline).length with
          | some (matchText, cap, after) =>
            listReplaceFirst matchText cap (refJoin path cap) ++ after
          | none => '!' :: rewriteMdImage path rest
        else '!' :: rewriteMdImage path rest
      | [] => '!' :: rewriteMdImage path rest
    else c :: rewriteMdImage path rest

/-- The character class `[src|href]` of the source (a class, not an
alternation: any single one of the characters `s r c | h e f`). -/
def isAttrChar (c : Char) : Bool :=
  c = 's' || c = 'r' || c = 'c' || c = '|' || c = 'h' || c = 'e' || c = 'f'

/-- Scanner of `/[src|href]=\"([^"\/\:]+)\"/g` over the character list;
the `Nat` argument is fuel that makes the recursion structural: every
step consumes at least one character, so fuel equal to the list length
(supplied by `rewriteHtmlRefs`) never runs out. -/
def rewriteHtmlAux (path : String) : Nat → List Char → List Char
  | _, [] => []
  | 0, cs => cs
  | fuel + 1, c :: rest =>
    if isAttrChar c then
      match rest with
      | d :: q :: r2 =>
        if d = '=' ∧ q = '"' then
          let cap := r2.takeWhile isBareChar
          if 1 ≤ cap.length ∧ (r2.drop cap.length).take 1 = ['"'] then
            listReplaceFirst (c :: '=' :: '"' :: (cap ++ ['"'])) cap (refJoin path cap)
              ++ rewriteHtmlAux path fuel (r2.drop (cap.length + 1))
          else c :: rewriteHtmlAux path fuel rest
        else c :: rewriteHtmlAux path fuel rest
      | _ => c :: rewriteHtmlAux path fuel rest
    else c :: rewriteHtmlAux path fuel rest

/-- JS `.replace(/[src|href]=\"([^"\/\:]+)\"/g, m => m.replace(filename, path.join("/", path, filename)))`:
every match of one attribute-class character followed by `="`, a
non-empty bare value and `"` is rewritten (global flag), scanning left
to right and resuming after each match. -/
def rewriteHtmlRefs (path : String) (cs : List Char) : List Char :=
  rewriteHtmlAux path cs.length cs

/-- Lines 302-321 of `contentGenerator.ts`: the body of a content file
after the two chained reference rewrites (markdown image first, HTML
`src`/`href` attributes second). -/
def rewriteBody (path : String) (markdownContent : String) : String :=
  String.mk (rewriteHtmlRefs path (rewriteMdImage path markdownContent.data))

theorem rewriteBody_sample_md :
    rewriteBody "my-most" "![Smile](smile.png)" = "![Smile](/my-most/smile.png)" := by
  decide

theorem rewriteBody_sample_html :
    rewriteBody "my-most" "<img src=\"smile.png\" /><a href=\"a.jpg\">Foo</a>"
      = "<img src=\"/my-most/smile.png\" /><a href=\"/my-most/a.jpg\">Foo</a>" := by
  decide

/-- Modelled from the spec: `interfaces.IPageConfig` (the interface
itself is not part of the provided sources; §3 "Page Configuration"
lists its content).  A per-content-file mapping with the fields the
engine reads or writes, plus a free-form map for further
front-matter-declared keys.  Optional string fields model JS keys that
may be absent or `undefined`. -/
structure PageConfig where
  date : Option String := none
  slug : Option String := none
  permalink : Option String := none
  dist_path : Option String := none
  title : Option String := none
  layout : Option String := none
  excerpt : Option String := none
  year : Option String := none
  filename : String := ""
  source : String := ""
  path : String := ""
  path_amp : Option String := none
  content_html : Option String := none
  extra : List (String × String) := []
deriving DecidableEq

/-- Modelled from the spec: the mapping returned by the external
config resolver `loadConfigFile` for one directory (`_config.yml`),
"a mapping of locally declared configuration keys, or an empty mapping
if none exists".  The keys the engine itself consumes are typed; other
keys live in `extra`. -/
structure LocalConfig where
  date : Option String := none
  slug : Option String := none
  permalink : Option String := none
  dist_path : Option String := none
  title : Option String := none
  layout : Option String := none
  excerpt : Option String := none
  extra : List (String × String) := []
deriving DecidableEq

/-- A front-matter `date` value as produced by the external gray-matter
parser: either a plain string, or a structured `Date` object (gray
matter parses unquoted ISO dates into date objects), carried here by
its ISO string. -/
inductive FmDate where
  | str (s : String)
  | dateObj (iso : String)
deriving DecidableEq

/-- Modelled from the spec: `interfaces.IFrontMatter` (not among the
provided sources; §6 lists the recognized fields `date`,
`slug`/`permalink`, `title`, `excerpt`, `layout`, `dist_path`,
non-exhaustively).  Unrecognized keys live in `extra`. -/
structure FrontMatter where
  date : Option FmDate := none
  slug : Option String := none
  permalink : Option String := none
  dist_path : Option String := none
  title : Option String := none
  layout : Option String := none
  excerpt : Option String := none
  extra : List (String × String) := []
deriving DecidableEq

/-- Line 79: `Object.assign({}, baseConfig, sourceDirectoryConfig)` -
the directory's local config file shadows the inherited configuration
key by key; the result is a fresh object. -/
def assignLocal (base : PageConfig) (loc : LocalConfig) : PageConfig :=
  { base with
    date := ovr loc.date base.date
    slug := ovr loc.slug base.slug
    permalink := ovr loc.permalink base.permalink
    dist_path := ovr loc.dist_path base.dist_path
    title := ovr loc.title base.title
    layout := ovr loc.layout base.layout
    excerpt := ovr loc.excerpt base.excerpt
    extra := mergeExtra loc.extra base.extra }

/-- Line 325 and 326-332: `Object.assign(pageConfig, frontMatter)`
followed by the `Date`-object normalization - front matter shadows the
page configuration key by key, and a structured date value is
converted to its first ten ISO characters (`YYYY-MM-DD`). -/
def assignFrontMatter (pc : PageConfig) (fm : FrontMatter) : PageConfig :=
  let merged := { pc with
    date := match fm.date with
      | some (.str s) => some s
      | some (.dateObj iso) => some iso
      | none => pc.date
    slug := ovr fm.slug pc.slug
    permalink := ovr fm.permalink pc.permalink
    dist_path := ovr fm.dist_path pc.dist_path
    title := ovr fm.title pc.title
    layout := ovr fm.layout pc.layout
    excerpt := ovr fm.excerpt pc.excerpt
    extra := mergeExtra fm.extra pc.extra }
  match fm.date with
  | some (.dateObj iso) => { merged with date := some (iso.take 10) }
  | _ => merged

/-- The source file-system tree, given as a directory listing in
`readdirSync` order (the inline `rest` chaining avoids a nested
`List`, keeping every traversal structurally recursive).  A file
carries its gray-matter split (front matter and body text, both
produced by external parsers); a directory carries the mapping of its
config file (empty when absent) and its own listing. -/
inductive FsListing where
  | nil
  | file (name : String) (fm : FrontMatter) (body : String) (rest : FsListing)
  | dir (name : String) (localCfg : LocalConfig) (entries : FsListing) (rest : FsListing)

/-- Template data handed to the external template renderer and AMP
generator: `Object.assign({}, this.baseTemplateData, pageConfig)`
(line 214), modelled as the pair of both layers. -/
structure TemplateData where
  base : List (String × String)
  page : PageConfig
deriving DecidableEq

/-- The external collaborators of the engine: the markdown renderer
(`marked` with the highlight and renderer options), the template
manager composed with Handlebars rendering, the base template data
built once from the site configuration and styles, and an oracle
telling for which page the AMP generator's promise rejects. -/
structure Env where
  markdown : String → String
  applyTemplate : String → TemplateData → String
  baseTemplateData : List (String × String)
  ampFails : TemplateData → Bool

/-- Build events in program order: asset copies, content page writes
(`fs.writeFileSync` of `<dest>/index.html`), AMP attempts, and the
per-directory `templateGenerator.generate` call with the page list it
receives. -/
inductive Event where
  | copyAsset (src dest : String)
  | writePage (filePath : String) (output : String) (page : PageConfig)
  | ampOk (filename : String)
  | ampError (filename : String)
  | renderTemplates (sourceDirectory destDirectory : String)
      (cfg : PageConfig) (pages : List PageConfig)
deriving DecidableEq

/-- Option constant (line 15): AMP page rendering is on. -/
def renderAmpPages : Bool := true

/-- Constant (line 19): the output file name of every content page. -/
def contentPageName : String := "index.html"

/-- Constant (line 20): extensions admitted as content files. -/
def contentExtensionsToInclude : List String := ["md"]

/-- Constant (line 21): extensions never copied as raw assets. -/
def assetIgnoreExtensions : List String := ["scss", "sass", "css", "md", "hbs"]

/-- JS `f.startsWith("_")`: names beginning with the ignore marker. -/
def isUnderscored (f : String) : Bool :=
  match f.data with
  | '_' :: _ => true
  | _ => false

/-- The filter of `processContentFiles` (lines 264-269): not
underscore-prefixed, not a directory, extension in the content set. -/
def contentFileFilter (f : String) (isDirectory : Bool) : Bool :=
  !isUnderscored f && !isDirectory && contentExtensionsToInclude.contains (extNoDot f)

/-- The filter of `processAssetFiles` (lines 242-247): not
underscore-prefixed, not a directory, extension not in the ignore set. -/
def assetFileFilter (f : String) (isDirectory : Bool) : Bool :=
  !isUnderscored f && !isDirectory && !(assetIgnoreExtensions.contains (extNoDot f))

/-- The content files of a listing, in listing order (the
`contentFileNames` filter applied to `sourceDirectoryFileNames`). -/
def contentFileEntries : FsListing → List (String × FrontMatter × String)
  | .nil => []
  | .file n fm body rest =>
    if contentFileFilter n false then (n, fm, body) :: contentFileEntries rest
    else contentFileEntries rest
  | .dir _ _ _ rest => contentFileEntries rest

/-- The subdirectories of a listing, in listing order (the
`subDirectoryNames` filter of lines 130-132; note it has no
underscore-name exclusion). -/
def subDirectoryEntries : FsListing → List (String × LocalConfig × FsListing)
  | .nil => []
  | .file _ _ _ rest => subDirectoryEntries rest
  | .dir n lc sub rest => (n, lc, sub) :: subDirectoryEntries rest

/-- Lines 82-84: `fse.existsSync(path.join(sourceDirectory, "index.md"))` -
the directory directly contains an entry named `index.md`. -/
def hasIndexMd : FsListing → Bool
  | .nil => false
  | .file n _ _ rest => n == "index.md" || hasIndexMd rest
  | .dir n _ _ rest => n == "index.md" || hasIndexMd rest

/-- Lines 237-255, `processAssetFiles`: each asset file is copied
byte-for-byte beside the resolved destination directory; the embedding
records the copies as events, in listing order. -/
def processAssetFiles (sourceDirectory : String) (entries : FsListing)
    (actualDestDirectory : String) : List Event :=
  match entries with
  | .nil => []
  | .file n _ _ rest =>
    if assetFileFilter n false then
      .copyAsset (pathJoin sourceDirectory n) (pathJoin actualDestDirectory n)
        :: processAssetFiles sourceDirectory rest actualDestDirectory
    else processAssetFiles sourceDirectory rest actualDestDirectory
  | .dir _ _ _ rest => processAssetFiles sourceDirectory rest actualDestDirectory

/-- Lines 75-93 of `generate`: the current directory configuration -
the inherited configuration shadowed by the local config file, and,
for a content package directory, the `date`/`slug` fields overwritten
by the match of the destination directory's basename (the date group
may be absent, in which case `date` is set to `undefined`). -/
def dirCurrentConfig (baseConfig : PageConfig) (localCfg : LocalConfig)
    (isContentPackageDirectory : Bool) (destDirectory : String) : PageConfig :=
  let c := assignLocal baseConfig localCfg
  if isContentPackageDirectory then
    let m := dateSlugMatch (basename destDirectory)
    { c with date := m.1, slug := some m.2 }
  else c

/-- Lines 95-108 of `generate`: a truthy `dist_path` replaces the
naturally nested destination by a path rooted at the global
destination root (one leading slash stripped), with the resolved slug
appended for a content package directory. -/
def overriddenDest (baseDestDirectory destDirectory : String) (cfg : PageConfig)
    (isContentPackageDirectory : Bool) : String :=
  if truthy cfg.dist_path then
    let o := pathJoin baseDestDirectory (stripLeadingSlash (cfg.dist_path.getD ""))
    if isContentPackageDirectory then pathJoin o (cfg.slug.getD "") else o
  else destDirectory

/-- Substring search: index of the first occurrence (JS `indexOf`). -/
def findSubstrIdx : List Char → List Char → Option Nat
  | [], pat => if pat.isEmpty then some 0 else none
  | c :: rest, pat =>
    if pat.isPrefixOf (c :: rest) then some 0
    else match findSubstrIdx rest pat with
      | some i => some (i + 1)
      | none => none

/-- Lines 349-364 of `parseContentFile`: when no excerpt is declared,
take the inner text of the first `<p>` element of the rendered HTML
(if both `<p>` and a following `</p>` exist). -/
def deriveExcerpt (pc : PageConfig) (html : String) : PageConfig :=
  if !truthy pc.excerpt then
    match findSubstrIdx html.data ['<', 'p', '>'] with
    | some i =>
      match findSubstrIdx (html.data.drop i) ['<', '/', 'p', '>'] with
      | some j =>
        { pc with excerpt := some (String.mk ((html.data.drop (i + 3)).take (i + j - (i + 3)))) }
      | none => pc
    | none => pc
  else pc

/-- Lines 295-370, `parseContentFile`: rewrite relative asset
references in the body using the page's resolved path, merge front
matter over the page configuration (normalizing date objects), then
convert the body - only the `md` extension is supported, anything else
throws - and derive the excerpt.  Returns the enriched configuration
and the rendered HTML. -/
def parseContentFile (env : Env) (pageConfig : PageConfig) (fm : FrontMatter)
    (body : String) : Except String (PageConfig × String) :=
  let markdownContent := rewriteBody pageConfig.path body
  let pc := assignFrontMatter pageConfig fm
  let fileExtension := extNoDot pc.filename
  if fileExtension = "md" then
    let html := env.markdown markdownContent
    .ok (deriveExcerpt pc html, html)
  else .error ("File extension not support: " ++ fileExtension)

/-- Total companion of `parseContentFile`, equal to it on `md` files
(`parseContentFile_ok`). -/
def parseContentFileT (env : Env) (pageConfig : PageConfig) (fm : FrontMatter)
    (body : String) : PageConfig × String :=
  let markdownContent := rewriteBody pageConfig.path body
  let pc := assignFrontMatter pageConfig fm
  let html := env.markdown markdownContent
  (deriveExcerpt pc html, html)

/-- Lines 163-184 of `renderContentFile`: honor `permalink` as a slug
alias, then, if date or slug is still falsy, derive the missing ones
from the extension-stripped file name via the date/separator/slug
pattern. -/
def deriveDateSlug (pageConfig : PageConfig) : PageConfig :=
  let pc := if !truthy pageConfig.slug && truthy pageConfig.permalink then
      { pageConfig with slug := pageConfig.permalink }
    else pageConfig
  if !truthy pc.date || !truthy pc.slug then
    let m := dateSlugMatch (stripExtension pc.filename)
    { pc with
      date := if !truthy pc.date then m.1 else pc.date
      slug := if !truthy pc.slug then some m.2 else pc.slug }
  else pc

/-- Lines 163-206 of `renderContentFile`: the metadata and path
computation before the file is parsed - title falls back to the slug,
`year` is the first four date characters, a non-package file renders
into a slug-named subdirectory, `path` is the output directory with
the destination root and a leading slash stripped, and `path_amp`
appends the literal string `amp.html` to `path`. -/
def renderStagePath (baseDestDirectory : String) (pageConfig : PageConfig)
    (actualDestDirectory : String) : PageConfig :=
  let isContentPackageDirectory := pageConfig.filename == "index.md"
  let pc1 := deriveDateSlug pageConfig
  let pc2 := if !truthy pc1.title then { pc1 with title := pc1.slug } else pc1
  let pc3 := if truthy pc2.date then
      { pc2 with year := some ((pc2.date.getD "").take 4) }
    else pc2
  let actualDest := if !isContentPackageDirectory then
      pathJoin actualDestDirectory (pc3.slug.getD "")
    else actualDestDirectory
  let pagePath := stripLeadingSlash (replaceFirst actualDest baseDestDirectory "")
  let pc4 := { pc3 with path := pagePath }
  if renderAmpPages then { pc4 with path_amp := some (pagePath ++ "amp.html") } else pc4

/-- Lines 210-234 of `renderContentFile`: store the rendered HTML on
the configuration, overlay the base template data, apply the layout
template (`layout || "default"`) and write `<dest>/index.html`
(the destination recomputed from the site-relative path, line 227). -/
def renderStageFinish (env : Env) (baseDestDirectory : String) (pc : PageConfig)
    (html : String) : PageConfig × TemplateData × List Event :=
  let pc2 := { pc with content_html := some html }
  let templateData : TemplateData := { base := env.baseTemplateData, page := pc2 }
  let layoutName := match pc2.layout with
    | some s => if s.isEmpty then "default" else s
    | none => "default"
  let templatedOutput := env.applyTemplate layoutName templateData
  let destDirectory := pathJoin baseDestDirectory pc2.path
  (pc2, templateData,
    [Event.writePage (pathJoin destDirectory contentPageName) templatedOutput pc2])

/-- Lines 159-235, `renderContentFile`: metadata/path stage, parse
stage (which can throw on a non-`md` extension), finish stage. -/
def renderContentFile (env : Env) (baseDestDirectory : String) (pageConfig : PageConfig)
    (actualDestDirectory : String) (fm : FrontMatter) (body : String) :
    Except String (PageConfig × TemplateData × List Event) :=
  let pc := renderStagePath baseDestDirectory pageConfig actualDestDirectory
  match parseContentFile env pc fm body with
  | .error e => .error e
  | .ok (pc2, html) => .ok (renderStageFinish env baseDestDirectory pc2 html)

/-- Total companion of `renderContentFile`, equal to it on `md` files
(`renderContentFile_ok`). -/
def renderContentFileT (env : Env) (baseDestDirectory : String) (pageConfig : PageConfig)
    (actualDestDirectory : String) (fm : FrontMatter) (body : String) :
    PageConfig × TemplateData × List Event :=
  let pc := renderStagePath baseDestDirectory pageConfig actualDestDirectory
  let (pc2, html) := parseContentFileT env pc fm body
  renderStageFinish env baseDestDirectory pc2 html

/-- Lines 257-293, `processContentFiles`, after its filter: each
content file gets a fresh copy of the directory configuration with
`filename`/`source` set, is rendered (a rendering error aborts the
whole build), then the AMP generator runs inside `try`/`catch` - a
rejection is logged as an event and never propagates - and the page is
pushed.  Returns pages and events in listing order. -/
def processContentList (env : Env) (baseDestDirectory sourceDirectory
    actualDestDirectory : String) (currentDirectoryConfig : PageConfig) :
    List (String × FrontMatter × String) → Except String (List PageConfig × List Event)
  | [] => .ok ([], [])
  | (name, fm, body) :: rest =>
    let pc0 := { currentDirectoryConfig with
      filename := name, source := pathJoin sourceDirectory name }
    match renderContentFile env baseDestDirectory pc0 actualDestDirectory fm body with
    | .error e => .error e
    | .ok (page, templateData, evs) =>
      let ampEvents := if renderAmpPages then
          (if env.ampFails templateData then [Event.ampError name] else [Event.ampOk name])
        else []
      match processContentList env baseDestDirectory sourceDirectory
          actualDestDirectory currentDirectoryConfig rest with
      | .error e => .error e
      | .ok (pages, evs2) => .ok (page :: pages, evs ++ ampEvents ++ evs2)

/-- Total companion of `processContentList`, equal to it on `md`-only
lists (`processContentList_ok`). -/
def processContentListT (env : Env) (baseDestDirectory sourceDirectory
    actualDestDirectory : String) (currentDirectoryConfig : PageConfig) :
    List (String × FrontMatter × String) → List PageConfig × List Event
  | [] => ([], [])
  | (name, fm, body) :: rest =>
    let pc0 := { currentDirectoryConfig with
      filename := name, source := pathJoin sourceDirectory name }
    let (page, templateData, evs) :=
      renderContentFileT env baseDestDirectory pc0 actualDestDirectory fm body
    let ampEvents := if renderAmpPages then
        (if env.ampFails templateData then [Event.ampError name] else [Event.ampOk name])
      else []
    let (pages, evs2) := processContentListT env baseDestDirectory sourceDirectory
      actualDestDirectory currentDirectoryConfig rest
    (page :: pages, evs ++ ampEvents ++ evs2)

/-- Lines 129-143 of `generate` (the faithful, `Except`-valued
embedding): traverse the subdirectories of a listing in order; for
each one, perform the full directory visit of `generate` - resolve the
configuration, classify, resolve the destination, copy assets, render
content files, recurse, and finally call the template generator with
the accumulated subtree page list - propagating any error.  The body
of the `.dir` case is the inlined body of `generate` for the child
call (inlining keeps the recursion structural). -/
def generateSubdirsE (env : Env) (baseDestDirectory : String) (cfg : PageConfig)
    (sourceDirectory destDirectory : String) :
    FsListing → Except String (List PageConfig × List Event)
  | .nil => .ok ([], [])
  | .file _ _ _ rest =>
    generateSubdirsE env baseDestDirectory cfg sourceDirectory destDirectory rest
  | .dir name lc sub rest =>
    let subSrc := pathJoin sourceDirectory name
    let subDest := pathJoin destDirectory name
    let isPkg := hasIndexMd sub
    let cur := dirCurrentConfig cfg lc isPkg subDest
    let ad := overriddenDest baseDestDirectory subDest cur isPkg
    let assetEvs := processAssetFiles subSrc sub ad
    match processContentList env baseDestDirectory subSrc ad cur (contentFileEntries sub) with
    | .error e => .error e
    | .ok (own, contentEvs) =>
      match generateSubdirsE env baseDestDirectory cur subSrc subDest sub with
      | .error e => .error e
      | .ok (subPages, subEvs) =>
        let allPages := own ++ subPages
        let childEvs := assetEvs ++ contentEvs ++ subEvs
          ++ [Event.renderTemplates subSrc subDest cur allPages]
        match generateSubdirsE env baseDestDirectory cfg sourceDirectory destDirectory rest with
        | .error e => .error e
        | .ok (restPages, restEvs) => .ok (allPages ++ restPages, childEvs ++ restEvs)

/-- Lines 68-157, `ContentGenerator.generate` (the faithful,
`Except`-valued embedding of one directory visit): merge the local
config file over the inherited configuration, classify the directory
as a content package (`index.md` present) and derive its `date`/`slug`
from the destination basename if so, resolve a `dist_path` override,
copy asset files, render the directory's own content files, recurse
into every subdirectory with the current configuration, and only then
hand the source directory, destination, configuration and accumulated
page list to the template generator (always called: the template
generator is constructed unconditionally at initialization).  The
`fse.ensureDirSync` and `console.log` calls are pure side effects
carrying no data and are not recorded as events.  The one-time `initialize` of the
source is modelled by threading the captured roots (`baseDestDirectory`
and the `Env` built there) as parameters. -/
def generate (env : Env) (baseDestDirectory : String) (baseConfig : PageConfig)
    (sourceDirectory destDirectory : String) (localCfg : LocalConfig)
    (entries : FsListing) : Except String (List PageConfig × List Event) :=
  let isPkg := hasIndexMd entries
  let currentDirectoryConfig := dirCurrentConfig baseConfig localCfg isPkg destDirectory
  let ad := overriddenDest baseDestDirectory destDirectory currentDirectoryConfig isPkg
  let assetEvs := processAssetFiles sourceDirectory entries ad
  match processContentList env baseDestDirectory sourceDirectory ad
      currentDirectoryConfig (contentFileEntries entries) with
  | .error e => .error e
  | .ok (own, contentEvs) =>
    match generateSubdirsE env baseDestDirectory currentDirectoryConfig
        sourceDirectory destDirectory entries with
    | .error e => .error e
    | .ok (subPages, subEvs) =>
      let allPages := own ++ subPages
      .ok (allPages, assetEvs ++ contentEvs ++ subEvs
        ++ [Event.renderTemplates sourceDirectory destDirectory
              currentDirectoryConfig allPages])

/-- Total companion of `generateSubdirsE` (see `generateSubdirsE_ok`). -/
def generateSubdirsT (env : Env) (baseDestDirectory : String) (cfg : PageConfig)
    (sourceDirectory destDirectory : String) : FsListing → List PageConfig × List Event
  | .nil => ([], [])
  | .file _ _ _ rest =>
    generateSubdirsT env baseDestDirectory cfg sourceDirectory destDirectory rest
  | .dir name lc sub rest =>
    let subSrc := pathJoin sourceDirectory name
    let subDest := pathJoin destDirectory name
    let isPkg := hasIndexMd sub
    let cur := dirCurrentConfig cfg lc isPkg subDest
    let ad := overriddenDest baseDestDirectory subDest cur isPkg
    let assetEvs := processAssetFiles subSrc sub ad
    let (own, contentEvs) :=
      processContentListT env baseDestDirectory subSrc ad cur (contentFileEntries sub)
    let (subPages, subEvs) := generateSubdirsT env baseDestDirectory cur subSrc subDest sub
    let allPages := own ++ subPages
    let childEvs := assetEvs ++ contentEvs ++ subEvs
      ++ [Event.renderTemplates subSrc subDest cur allPages]
    let (restPages, restEvs) :=
      generateSubdirsT env baseDestDirectory cfg sourceDirectory destDirectory rest
    (allPages ++ restPages, childEvs ++ restEvs)

/-- Total companion of `generate` (see `generate_ok`). -/
def generateT (env : Env) (baseDestDirectory : String) (baseConfig : PageConfig)
    (sourceDirectory destDirectory : String) (localCfg : LocalConfig)
    (entries : FsListing) : List PageConfig × List Event :=
  let isPkg := hasIndexMd entries
  let currentDirectoryConfig := dirCurrentConfig baseConfig localCfg isPkg destDirectory
  let ad := overriddenDest baseDestDirectory destDirectory currentDirectoryConfig isPkg
  let assetEvs := processAssetFiles sourceDirectory entries ad
  let (own, contentEvs) := processContentListT env baseDestDirectory sourceDirectory ad
    currentDirectoryConfig (contentFileEntries entries)
  let (subPages, subEvs) := generateSubdirsT env baseDestDirectory currentDirectoryConfig
    sourceDirectory destDirectory entries
  let allPages := own ++ subPages
  (allPages, assetEvs ++ contentEvs ++ subEvs
    ++ [Event.renderTemplates sourceDirectory destDirectory
          currentDirectoryConfig allPages])


theorem assignFrontMatter_filename (pc : PageConfig) (fm : FrontMatter) :
    (assignFrontMatter pc fm).filename = pc.filename := by
  unfold assignFrontMatter
  cases h : fm.date with
  | none => rfl
  | some d => cases d <;> rfl

theorem parseContentFile_ok (env : Env) (pc : PageConfig) (fm : FrontMatter)
    (body : String) (h : extNoDot pc.filename = "md") :
    parseContentFile env pc fm body = .ok (parseContentFileT env pc fm body) := by
  simp only [parseContentFile, parseContentFileT, assignFrontMatter_filename, h]
  simp

theorem deriveDateSlug_filename (pc : PageConfig) :
    (deriveDateSlug pc).filename = pc.filename := by
  simp only [deriveDateSlug]
  split_ifs <;> rfl

theorem renderStagePath_filename (bd : String) (pc : PageConfig) (ad : String) :
    (renderStagePath bd pc ad).filename = pc.filename := by
  simp only [renderStagePath]
  split_ifs <;> simp [deriveDateSlug_filename]

theorem renderContentFile_ok (env : Env) (bd : String) (pc : PageConfig) (ad : String)
    (fm : FrontMatter) (body : String) (h : extNoDot pc.filename = "md") :
    renderContentFile env bd pc ad fm body
      = .ok (renderContentFileT env bd pc ad fm body) := by
  have h2 : extNoDot (renderStagePath bd pc ad).filename = "md" := by
    rw [renderStagePath_filename]; exact h
  simp only [renderContentFile, renderContentFileT,
    parseContentFile_ok env (renderStagePath bd pc ad) fm body h2]

theorem contentFileFilter_md (n : String) (isDir : Bool)
    (h : contentFileFilter n isDir = true) : extNoDot n = "md" := by
  unfold contentFileFilter contentExtensionsToInclude at h
  simp [List.contains] at h
  exact h.2

theorem contentFileEntries_md (t : FsListing) :
    ∀ x ∈ contentFileEntries t, extNoDot x.1 = "md" := by
  induction t with
  | nil => intro x hx; simp [contentFileEntries] at hx
  | file n fm body rest ih =>
    intro x hx
    unfold contentFileEntries at hx
    by_cases h : contentFileFilter n false = true
    · rw [if_pos h] at hx
      rcases List.mem_cons.mp hx with hx1 | hx2
      · subst hx1; exact contentFileFilter_md n false h
      · exact ih x hx2
    · rw [if_neg h] at hx; exact ih x hx
  | dir n lc sub rest ihsub ihrest =>
    intro x hx
    unfold contentFileEntries at hx
    exact ihrest x hx

theorem processContentList_ok (env : Env) (bd sd ad : String) (cfg : PageConfig)
    (ls : List (String × FrontMatter × String))
    (h : ∀ x ∈ ls, extNoDot x.1 = "md") :
    processContentList env bd sd ad cfg ls
      = .ok (processContentListT env bd sd ad cfg ls) := by
  induction ls with
  | nil => rfl
  | cons x rest ih =>
    obtain ⟨name, fm, body⟩ := x
    have hmd : extNoDot name = "md" := h _ (List.mem_cons_self _ _)
    have hmd2 : extNoDot (PageConfig.filename
        { cfg with filename := name, source := pathJoin sd name }) = "md" := hmd
    simp only [processContentList, processContentListT,
      renderContentFile_ok env bd
        { cfg with filename := name, source := pathJoin sd name } ad fm body hmd2,
      ih (fun y hy => h y (List.mem_cons_of_mem _ hy))]

theorem generateSubdirsE_ok (env : Env) (bd : String) (t : FsListing) :
    ∀ cfg sd dd, generateSubdirsE env bd cfg sd dd t
      = .ok (generateSubdirsT env bd cfg sd dd t) := by
  induction t with
  | nil => intro cfg sd dd; rfl
  | file n fm body rest ih =>
    intro cfg sd dd
    simpa only [generateSubdirsE, generateSubdirsT] using ih cfg sd dd
  | dir name lc sub rest ihsub ihrest =>
    intro cfg sd dd
    have hpc := processContentList_ok env bd (pathJoin sd name)
      (overriddenDest bd (pathJoin dd name)
        (dirCurrentConfig cfg lc (hasIndexMd sub) (pathJoin dd name)) (hasIndexMd sub))
      (dirCurrentConfig cfg lc (hasIndexMd sub) (pathJoin dd name))
      (contentFileEntries sub) (contentFileEntries_md sub)
    simp only [generateSubdirsE, generateSubdirsT, hpc,
      ihsub (dirCurrentConfig cfg lc (hasIndexMd sub) (pathJoin dd name))
        (pathJoin sd name) (pathJoin dd name),
      ihrest cfg sd dd]

theorem generate_ok (env : Env) (bd : String) (baseConfig : PageConfig)
    (sd dd : String) (lc : LocalConfig) (entries : FsListing) :
    generate env bd baseConfig sd dd lc entries
      = .ok (generateT env bd baseConfig sd dd lc entries) := by
  have hpc := processContentList_ok env bd sd
    (overriddenDest bd dd
      (dirCurrentConfig baseConfig lc (hasIndexMd entries) dd) (hasIndexMd entries))
    (dirCurrentConfig baseConfig lc (hasIndexMd entries) dd)
    (contentFileEntries entries) (contentFileEntries_md entries)
  simp only [generate, generateT, hpc, generateSubdirsE_ok env bd entries]

theorem generateSubdirsT_dir (env : Env) (bd : String) (cfg : PageConfig)
    (sd dd name : String) (lc : LocalConfig) (sub rest : FsListing) :
    generateSubdirsT env bd cfg sd dd (.dir name lc sub rest)
      = ((generateT env bd cfg (pathJoin sd name) (pathJoin dd name) lc sub).1
           ++ (generateSubdirsT env bd cfg sd dd rest).1,
         (generateT env bd cfg (pathJoin sd name) (pathJoin dd name) lc sub).2
           ++ (generateSubdirsT env bd cfg sd dd rest).2) := by
  rfl

theorem assignFrontMatter_path (pc : PageConfig) (fm : FrontMatter) :
    (assignFrontMatter pc fm).path = pc.path := by
  unfold assignFrontMatter
  cases h : fm.date with
  | none => rfl
  | some d => cases d <;> rfl

theorem assignFrontMatter_path_amp (pc : PageConfig) (fm : FrontMatter) :
    (assignFrontMatter pc fm).path_amp = pc.path_amp := by
  unfold assignFrontMatter
  cases h : fm.date with
  | none => rfl
  | some d => cases d <;> rfl

theorem deriveExcerpt_proj (pc : PageConfig) (html : String) :
    (deriveExcerpt pc html).path_amp = pc.path_amp
      ∧ (deriveExcerpt pc html).path = pc.path := by
  unfold deriveExcerpt
  split_ifs <;> (try split) <;> (try split) <;> exact ⟨rfl, rfl⟩

theorem renderStagePath_amp (bd : String) (pc : PageConfig) (ad : String) :
    (renderStagePath bd pc ad).path_amp
      = some ((renderStagePath bd pc ad).path ++ "amp.html") := by
  rfl

theorem renderContentFileT_proj (env : Env) (bd : String) (pc : PageConfig)
    (ad : String) (fm : FrontMatter) (body : String) :
    (renderContentFileT env bd pc ad fm body).1.path_amp
        = (renderStagePath bd pc ad).path_amp
      ∧ (renderContentFileT env bd pc ad fm body).1.path
        = (renderStagePath bd pc ad).path := by
  unfold renderContentFileT renderStageFinish parseContentFileT
  constructor
  · show (deriveExcerpt (assignFrontMatter (renderStagePath bd pc ad) fm) _).path_amp = _
    rw [(deriveExcerpt_proj _ _).1, assignFrontMatter_path_amp]
  · show (deriveExcerpt (assignFrontMatter (renderStagePath bd pc ad) fm) _).path = _
    rw [(deriveExcerpt_proj _ _).2, assignFrontMatter_path]

theorem renderContentFileT_page_amp (env : Env) (bd : String) (pc : PageConfig)
    (ad : String) (fm : FrontMatter) (body : String) :
    (renderContentFileT env bd pc ad fm body).1.path_amp
      = some ((renderContentFileT env bd pc ad fm body).1.path ++ "amp.html") := by
  rw [(renderContentFileT_proj env bd pc ad fm body).1,
    (renderContentFileT_proj env bd pc ad fm body).2, renderStagePath_amp]

theorem renderContentFileT_event (env : Env) (bd : String) (pc : PageConfig)
    (ad : String) (fm : FrontMatter) (body : String) :
    ∃ f o, (renderContentFileT env bd pc ad fm body).2.2
      = [Event.writePage f o (renderContentFileT env bd pc ad fm body).1] :=
  ⟨_, _, rfl⟩

theorem processContentListT_pages (env : Env) (bd sd ad : String) (cfg : PageConfig)
    (ls : List (String × FrontMatter × String)) :
    ∀ p ∈ (processContentListT env bd sd ad cfg ls).1,
      (∃ f o, Event.writePage f o p ∈ (processContentListT env bd sd ad cfg ls).2)
        ∧ p.path_amp = some (p.path ++ "amp.html") := by
  induction ls with
  | nil => intro p hp; cases hp
  | cons x rest ih =>
    obtain ⟨name, fm, body⟩ := x
    intro p hp
    simp only [processContentListT] at hp ⊢
    rcases List.mem_cons.mp hp with hp1 | hp2
    · subst hp1
      refine ⟨?_, renderContentFileT_page_amp env bd _ ad fm body⟩
      obtain ⟨f, o, hfo⟩ := renderContentFileT_event env bd
        { cfg with filename := name, source := pathJoin sd name } ad fm body
      exact ⟨f, o, by rw [hfo]; simp⟩
    · obtain ⟨⟨f, o, hfo⟩, hamp⟩ := ih p hp2
      exact ⟨⟨f, o, by simp [hfo]⟩, hamp⟩

theorem generateSubdirsT_pages (env : Env) (bd : String) (t : FsListing) :
    ∀ cfg sd dd, ∀ p ∈ (generateSubdirsT env bd cfg sd dd t).1,
      (∃ f o, Event.writePage f o p ∈ (generateSubdirsT env bd cfg sd dd t).2)
        ∧ p.path_amp = some (p.path ++ "amp.html") := by
  induction t with
  | nil => intro cfg sd dd p hp; cases hp
  | file n fm body rest ih =>
    intro cfg sd dd p hp
    exact ih cfg sd dd p hp
  | dir name lc sub rest ihsub ihrest =>
    intro cfg sd dd p hp
    simp only [generateSubdirsT] at hp ⊢
    rcases List.mem_append.mp hp with hp1 | hp2
    · rcases List.mem_append.mp hp1 with hpo | hps
      · obtain ⟨⟨f, o, hfo⟩, hamp⟩ := processContentListT_pages env bd (pathJoin sd name)
          (overriddenDest bd (pathJoin dd name)
            (dirCurrentConfig cfg lc (hasIndexMd sub) (pathJoin dd name)) (hasIndexMd sub))
          (dirCurrentConfig cfg lc (hasIndexMd sub) (pathJoin dd name))
          (contentFileEntries sub) p hpo
        exact ⟨⟨f, o, by simp [hfo]⟩, hamp⟩
      · obtain ⟨⟨f, o, hfo⟩, hamp⟩ := ihsub
          (dirCurrentConfig cfg lc (hasIndexMd sub) (pathJoin dd name))
          (pathJoin sd name) (pathJoin dd name) p hps
        exact ⟨⟨f, o, by simp [hfo]⟩, hamp⟩
    · obtain ⟨⟨f, o, hfo⟩, hamp⟩ := ihrest cfg sd dd p hp2
      exact ⟨⟨f, o, by simp [hfo]⟩, hamp⟩

theorem generateT_pages (env : Env) (bd : String) (bc : PageConfig) (sd dd : String)
    (lc : LocalConfig) (es : FsListing) :
    ∀ p ∈ (generateT env bd bc sd dd lc es).1,
      (∃ f o, Event.writePage f o p ∈ (generateT env bd bc sd dd lc es).2)
        ∧ p.path_amp = some (p.path ++ "amp.html") := by
  intro p hp
  simp only [generateT] at hp ⊢
  rcases List.mem_append.mp hp with hpo | hps
  · obtain ⟨⟨f, o, hfo⟩, hamp⟩ := processContentListT_pages env bd sd
      (overriddenDest bd dd (dirCurrentConfig bc lc (hasIndexMd es) dd) (hasIndexMd es))
      (dirCurrentConfig bc lc (hasIndexMd es) dd)
      (contentFileEntries es) p hpo
    exact ⟨⟨f, o, by simp [hfo]⟩, hamp⟩
  · obtain ⟨⟨f, o, hfo⟩, hamp⟩ := generateSubdirsT_pages env bd es
      (dirCurrentConfig bc lc (hasIndexMd es) dd) sd dd p hps
    exact ⟨⟨f, o, by simp [hfo]⟩, hamp⟩

/-- Replace only the AMP failure oracle of an environment (the
markdown renderer, template manager and base template data are
unchanged). -/
def setAmp (env : Env) (g : TemplateData → Bool) : Env :=
  { env with ampFails := g }

/-- Events other than the AMP success/failure log entries. -/
def notAmp : Event → Bool
  | .ampOk _ => false
  | .ampError _ => false
  | _ => true

theorem renderContentFileT_setAmp (env : Env) (g : TemplateData → Bool) (bd : String)
    (pc : PageConfig) (ad : String) (fm : FrontMatter) (body : String) :
    renderContentFileT (setAmp env g) bd pc ad fm body
      = renderContentFileT env bd pc ad fm body := rfl

theorem processContentListT_setAmp (env : Env) (g : TemplateData → Bool)
    (bd sd ad : String) (cfg : PageConfig) (ls : List (String × FrontMatter × String)) :
    (processContentListT (setAmp env g) bd sd ad cfg ls).1
        = (processContentListT env bd sd ad cfg ls).1
      ∧ ((processContentListT (setAmp env g) bd sd ad cfg ls).2).filter notAmp
        = ((processContentListT env bd sd ad cfg ls).2).filter notAmp := by
  induction ls with
  | nil => exact ⟨rfl, rfl⟩
  | cons x rest ih =>
    obtain ⟨name, fm, body⟩ := x
    simp only [processContentListT, renderContentFileT_setAmp]
    constructor
    · rw [ih.1]
    · simp only [List.filter_append, ih.2, renderAmpPages, if_true]
      congr 1
      split_ifs <;> rfl

theorem generateSubdirsT_setAmp (env : Env) (g : TemplateData → Bool) (bd : String)
    (t : FsListing) :
    ∀ cfg sd dd,
      (generateSubdirsT (setAmp env g) bd cfg sd dd t).1
          = (generateSubdirsT env bd cfg sd dd t).1
        ∧ ((generateSubdirsT (setAmp env g) bd cfg sd dd t).2).filter notAmp
          = ((generateSubdirsT env bd cfg sd dd t).2).filter notAmp := by
  induction t with
  | nil => intro cfg sd dd; exact ⟨rfl, rfl⟩
  | file n fm body rest ih => intro cfg sd dd; exact ih cfg sd dd
  | dir name lc sub rest ihsub ihrest =>
    intro cfg sd dd
    simp only [generateSubdirsT]
    have hc := processContentListT_setAmp env g bd (pathJoin sd name)
      (overriddenDest bd (pathJoin dd name)
        (dirCurrentConfig cfg lc (hasIndexMd sub) (pathJoin dd name)) (hasIndexMd sub))
      (dirCurrentConfig cfg lc (hasIndexMd sub) (pathJoin dd name))
      (contentFileEntries sub)
    have hs := ihsub (dirCurrentConfig cfg lc (hasIndexMd sub) (pathJoin dd name))
      (pathJoin sd name) (pathJoin dd name)
    have hr := ihrest cfg sd dd
    constructor
    · rw [hc.1, hs.1, hr.1]
    · simp only [List.filter_append, hc.1, hc.2, hs.1, hs.2, hr.2]

theorem generateT_setAmp (env : Env) (g : TemplateData → Bool) (bd : String)
    (bc : PageConfig) (sd dd : String) (lc : LocalConfig) (es : FsListing) :
    (generateT (setAmp env g) bd bc sd dd lc es).1 = (generateT env bd bc sd dd lc es).1
      ∧ ((generateT (setAmp env g) bd bc sd dd lc es).2).filter notAmp
        = ((generateT env bd bc sd dd lc es).2).filter notAmp := by
  simp only [generateT]
  have hc := processContentListT_setAmp env g bd sd
    (overriddenDest bd dd (dirCurrentConfig bc lc (hasIndexMd es) dd) (hasIndexMd es))
    (dirCurrentConfig bc lc (hasIndexMd es) dd) (contentFileEntries es)
  have hs := generateSubdirsT_setAmp env g bd es
    (dirCurrentConfig bc lc (hasIndexMd es) dd) sd dd
  constructor
  · rw [hc.1, hs.1]
  · simp only [List.filter_append, hc.1, hc.2, hs.1, hs.2]

theorem processContentListT_map (env : Env) (bd sd ad : String) (cfg : PageConfig)
    (ls : List (String × FrontMatter × String)) :
    (processContentListT env bd sd ad cfg ls).1
      = ls.map (fun x => (renderContentFileT env bd
          { cfg with filename := x.1, source := pathJoin sd x.1 } ad x.2.1 x.2.2).1) := by
  induction ls with
  | nil => rfl
  | cons x rest ih =>
    obtain ⟨name, fm, body⟩ := x
    simp only [processContentListT, List.map_cons]
    rw [ih]

theorem generateSubdirsT_map (env : Env) (bd : String) (t : FsListing) :
    ∀ cfg sd dd, (generateSubdirsT env bd cfg sd dd t).1
      = ((subDirectoryEntries t).map (fun x =>
          (generateT env bd cfg (pathJoin sd x.1) (pathJoin dd x.1) x.2.1 x.2.2).1)).flatten := by
  induction t with
  | nil => intro cfg sd dd; rfl
  | file n fm body rest ih =>
    intro cfg sd dd
    simpa only [subDirectoryEntries] using ih cfg sd dd
  | dir name lc sub rest ihsub ihrest =>
    intro cfg sd dd
    rw [generateSubdirsT_dir]
    simp only [subDirectoryEntries, List.map_cons, List.flatten_cons]
    rw [ihrest cfg sd dd]

theorem isDateChars_length (cs : List Char) (h : isDateChars cs = true) :
    cs.length = 10 := by
  unfold isDateChars at h
  split at h
  · simp_all
  · cases h

theorem dateSlugMatch_of_date (d rest : String) (sep : Char)
    (hd : isDateChars d.data = true) (hsep : isSepChar sep = true) :
    dateSlugMatch (d ++ String.mk [sep] ++ rest) = (some d, rest) := by
  have hlen : d.data.length = 10 := isDateChars_length _ hd
  have hdata : (d ++ String.mk [sep] ++ rest).data = d.data ++ (sep :: rest.data) := by
    simp [String.data_append]
  have htake : (d.data ++ (sep :: rest.data)).take 10 = d.data := by
    rw [← hlen]; exact List.take_left _ _
  have hdrop : (d.data ++ (sep :: rest.data)).drop 10 = sep :: rest.data := by
    rw [← hlen]; exact List.drop_left _ _
  unfold dateSlugMatch matchDateLead
  rw [hdata, htake, hdrop, if_pos hd]
  simp [hsep]

/-- C5: for a content file whose extension-stripped name is a
`YYYY-MM-DD` date, a `-` or `_` separator, and a slug, and whose page
configuration carries neither a date nor a slug (nor the `permalink`
alias), the derivation of `renderContentFile` yields exactly the
literal date substring and the remainder after the separator. -/
theorem claim_C5_filename_date_slug (pc : PageConfig) (d rest : String) (sep : Char)
    (hd : isDateChars d.data = true)
    (hsep : sep = '-' ∨ sep = '_')
    (hstrip : stripExtension pc.filename = d ++ String.mk [sep] ++ rest)
    (hdate : truthy pc.date = false)
    (hslug : truthy pc.slug = false)
    (hperm : truthy pc.permalink = false) :
    (deriveDateSlug pc).date = some d ∧ (deriveDateSlug pc).slug = some rest := by
  have hsep2 : isSepChar sep = true := by
    rcases hsep with h | h <;> simp [isSepChar, h]
  simp only [deriveDateSlug, hdate, hslug, hperm, Bool.and_false, Bool.not_false,
    Bool.false_or, Bool.or_self, if_false, ite_true, ite_false, Bool.false_eq_true]
  simp only [hstrip, dateSlugMatch_of_date d rest sep hd hsep2]
  simp [hdate, hslug]

/-- Witness for `claim_C5_filename_date_slug` at the spec's example
file name `2024-01-05-hello-world.md` with an empty configuration. -/
theorem claim_C5_witness :
    (deriveDateSlug { filename := "2024-01-05-hello-world.md" }).date = some "2024-01-05"
      ∧ (deriveDateSlug { filename := "2024-01-05-hello-world.md" }).slug
          = some "hello-world" :=
  claim_C5_filename_date_slug { filename := "2024-01-05-hello-world.md" }
    "2024-01-05" "hello-world" '-' (by decide) (Or.inl rfl) (by decide)
    (by decide) (by decide) (by decide)

/-- A concrete environment for witnesses and counterexamples: markdown
rendering is the identity, template application returns the empty
document and no AMP generation fails. -/
def envC : Env :=
  { markdown := fun s => s
    applyTemplate := fun _ _ => ""
    baseTemplateData := []
    ampFails := fun _ => false }

/-- Tree `/projects/2023-09-01-widget/index.md` with no `dist_path`
configured anywhere. -/
def projectsTreeNoDist : FsListing :=
  .dir "projects" {}
    (.dir "2023-09-01-widget" {} (.file "index.md" {} "hello" .nil) .nil) .nil

/-- Tree `/projects/2023-09-01-widget/index.md` where the `projects`
directory's config file declares `dist_path: /projects` (the usage
pattern of the repository). -/
def projectsTreeDist : FsListing :=
  .dir "projects" { dist_path := some "/projects" }
    (.dir "2023-09-01-widget" {} (.file "index.md" {} "hello" .nil) .nil) .nil

/-- C3 counterexample: without a `dist_path` override, the content
package `/projects/2023-09-01-widget/` keeps its literal, date-prefixed
directory name in the output path - the page is written under
`projects/2023-09-01-widget`, not `projects/widget`, even though the
derived date is `2023-09-01` as claimed. -/
theorem claim_C3_counterexample :
    (generate envC "_dist" {} "content" "_dist" {} projectsTreeNoDist).map
        (fun r => r.1.map (fun p => (p.path, p.date)))
      = .ok [("projects/2023-09-01-widget", some "2023-09-01")]
    ∧ ("projects/2023-09-01-widget" : String) ≠ "projects/widget" := by
  exact ⟨rfl, by decide⟩

/-- C3 amended: when the directory's resolved configuration carries
`dist_path: /projects` (locally or inherited), the content package
`/projects/2023-09-01-widget/index.md` produces the output file
`/projects/widget/index.html` (resolved slug, no extra nested slug
folder) with derived date `2023-09-01`; without a `dist_path` the
output keeps the literal directory name (see the counterexample). -/
theorem claim_C3_amended :
    (generate envC "_dist" {} "content" "_dist" {} projectsTreeDist).map
        (fun r => (r.1.map (fun p => (p.path, p.date)),
          r.2.filterMap (fun e => match e with
            | Event.writePage f _ _ => some f
            | _ => none)))
      = .ok ([("projects/widget", some "2023-09-01")],
          ["_dist/projects/widget/index.html"]) := by
  rfl

/-- A content-package directory `pkg` holding `index.md` and a loose
`about.md`. -/
def packageAboutTree : FsListing :=
  .dir "pkg" {} (.file "index.md" {} "hi" (.file "about.md" {} "hi" .nil)) .nil

/-- A plain (non-package) directory `docs` holding a loose `about.md`. -/
def plainAboutTree : FsListing :=
  .dir "docs" {} (.file "about.md" {} "hi" .nil) .nil

/-- C4 counterexample: in a content-package directory `pkg`, the
loose file `about.md` inherits the directory-derived slug `pkg` (set
on the directory configuration by the package classification), so its
output path is `pkg/pkg`, not the claimed `pkg/about`; the `index.md`
half of the claim does hold (path `pkg`, no extra segment). -/
theorem claim_C4_counterexample :
    (generate envC "_dist" {} "content" "_dist" {} packageAboutTree).map
        (fun r => r.1.map (fun p => p.path))
      = .ok ["pkg", "pkg/pkg"]
    ∧ ("pkg/pkg" : String) ≠ "pkg/about" := by
  exact ⟨rfl, by decide⟩

/-- Tree `/blog/2024-01-05-hello-world.md`, a dated loose post. -/
def blogPostTree : FsListing :=
  .dir "blog" {} (.file "2024-01-05-hello-world.md" {} "# Hi" .nil) .nil

/-- C8 counterexample: `path_amp` is built by plain string
concatenation `path + "amp.html"` with no separator, so for the post
at `blog/hello-world` it is `blog/hello-worldamp.html`, not the
path-joined `blog/hello-world/amp.html` that "the path segment
amp.html" describes. -/
theorem claim_C8_counterexample :
    (generate envC "_dist" {} "content" "_dist" {} blogPostTree).map
        (fun r => r.1.map (fun p => (p.path, p.path_amp)))
      = .ok [("blog/hello-world", some "blog/hello-worldamp.html")]
    ∧ ("blog/hello-worldamp.html" : String) ≠ pathJoin "blog/hello-world" "amp.html" := by
  exact ⟨rfl, by decide⟩

/-- C8 amended: for every page of every run, `path_amp` is the page's
site-relative output path with the literal string `amp.html` appended
directly (no separator is inserted; the two coincide only for the
root page whose path is empty). -/
theorem claim_C8_amended (env : Env) (bd : String) (bc : PageConfig) (sd dd : String)
    (lc : LocalConfig) (es : FsListing) :
    ∃ pages evs, generate env bd bc sd dd lc es = .ok (pages, evs)
      ∧ ∀ p ∈ pages, p.path_amp = some (p.path ++ "amp.html") := by
  refine ⟨(generateT env bd bc sd dd lc es).1, (generateT env bd bc sd dd lc es).2,
    generate_ok env bd bc sd dd lc es, ?_⟩
  intro p hp
  exact (generateT_pages env bd bc sd dd lc es p hp).2

/-- Witness for `claim_C8_amended` at the concrete blog tree. -/
theorem claim_C8_amended_witness :
    ∃ pages evs, generate envC "_dist" {} "content" "_dist" {} blogPostTree
        = .ok (pages, evs)
      ∧ ∀ p ∈ pages, p.path_amp = some (p.path ++ "amp.html") :=
  claim_C8_amended envC "_dist" {} "content" "_dist" {} blogPostTree

/-- C10: content classification admits exactly the `md` extension, and
since `md` is also in the asset-ignore set the two classifications are
disjoint; consequently every file passed to `parseContentFile` during
a build has the `md` extension and the unsupported-extension error
branch is unreachable - the whole build is error-free (`generate`
always returns `ok`). -/
theorem claim_C10_md_only :
    (∀ f isDir, ¬(contentFileFilter f isDir = true ∧ assetFileFilter f isDir = true))
    ∧ (∀ t, ∀ x ∈ contentFileEntries t, extNoDot x.1 = "md")
    ∧ (∀ env bd bc sd dd lc es, generate env bd bc sd dd lc es
        = .ok (generateT env bd bc sd dd lc es)) := by
  refine ⟨?_, contentFileEntries_md, generate_ok⟩
  intro f isDir h
  obtain ⟨hc, ha⟩ := h
  have hmd : extNoDot f = "md" := contentFileFilter_md f isDir hc
  unfold assetFileFilter at ha
  rw [hmd] at ha
  simp [assetIgnoreExtensions] at ha

/-- Witness for `claim_C10_md_only` at a concrete file name and a
concrete build. -/
theorem claim_C10_witness :
    ¬(contentFileFilter "style.css" false = true ∧ assetFileFilter "style.css" false = true)
    ∧ generate envC "_dist" {} "content" "_dist" {} blogPostTree
        = .ok (generateT envC "_dist" {} "content" "_dist" {} blogPostTree) :=
  ⟨claim_C10_md_only.1 "style.css" false,
    claim_C10_md_only.2.2 envC "_dist" {} "content" "_dist" {} blogPostTree⟩

/-- C7: whatever set of pages the AMP generator fails on, the build
returns `ok` with the *same* page list, the non-AMP event trace
(asset copies, page writes, template rendering - i.e. all subsequent
processing) is identical, failures surface only as logged `ampError`
events, and every returned page carries its normal `path` and
`path_amp` fields. -/
theorem claim_C7_amp_isolation (env : Env) (g : TemplateData → Bool) (bd : String)
    (bc : PageConfig) (sd dd : String) (lc : LocalConfig) (es : FsListing) :
    ∃ pages evs evsG,
      generate env bd bc sd dd lc es = .ok (pages, evs)
      ∧ generate (setAmp env g) bd bc sd dd lc es = .ok (pages, evsG)
      ∧ evsG.filter notAmp = evs.filter notAmp
      ∧ ∀ p ∈ pages, p.path_amp = some (p.path ++ "amp.html") := by
  refine ⟨(generateT env bd bc sd dd lc es).1, (generateT env bd bc sd dd lc es).2,
    (generateT (setAmp env g) bd bc sd dd lc es).2,
    generate_ok env bd bc sd dd lc es, ?_, ?_, ?_⟩
  · rw [generate_ok]
    congr 1
    exact Prod.ext (generateT_setAmp env g bd bc sd dd lc es).1 rfl
  · exact (generateT_setAmp env g bd bc sd dd lc es).2
  · intro p hp
    exact (generateT_pages env bd bc sd dd lc es p hp).2

/-- Witness for `claim_C7_amp_isolation` with the oracle that fails
every AMP generation. -/
theorem claim_C7_witness :
    ∃ pages evs evsG,
      generate envC "_dist" {} "content" "_dist" {} blogPostTree = .ok (pages, evs)
      ∧ generate (setAmp envC (fun _ => true)) "_dist" {} "content" "_dist" {} blogPostTree
          = .ok (pages, evsG)
      ∧ evsG.filter notAmp = evs.filter notAmp
      ∧ ∀ p ∈ pages, p.path_amp = some (p.path ++ "amp.html") :=
  claim_C7_amp_isolation envC (fun _ => true) "_dist" {} "content" "_dist" {} blogPostTree

/-- C1: every directory visit succeeds and its event trace ends with
the single `templateGenerator.generate` call, whose page-list argument
is exactly the full page list returned for the subtree; every page of
that list was written (its `writeFileSync` event occurred) strictly
before the template call.  Because `generate` recurses before emitting
this final event, a parent-level template page always sees every page
produced by any child directory. -/
theorem claim_C1_templates_after_subtree (env : Env) (bd : String) (bc : PageConfig)
    (sd dd : String) (lc : LocalConfig) (es : FsListing) :
    ∃ pages t,
      generate env bd bc sd dd lc es
        = .ok (pages, t ++ [Event.renderTemplates sd dd
            (dirCurrentConfig bc lc (hasIndexMd es) dd) pages])
      ∧ ∀ p ∈ pages, ∃ f o, Event.writePage f o p ∈ t := by
  refine ⟨(generateT env bd bc sd dd lc es).1,
    processAssetFiles sd es (overriddenDest bd dd
        (dirCurrentConfig bc lc (hasIndexMd es) dd) (hasIndexMd es))
      ++ (processContentListT env bd sd
          (overriddenDest bd dd (dirCurrentConfig bc lc (hasIndexMd es) dd)
            (hasIndexMd es))
          (dirCurrentConfig bc lc (hasIndexMd es) dd) (contentFileEntries es)).2
      ++ (generateSubdirsT env bd (dirCurrentConfig bc lc (hasIndexMd es) dd)
          sd dd es).2, ?_, ?_⟩
  · rw [generate_ok]
    rfl
  · intro p hp
    obtain ⟨⟨f, o, hfo⟩, _⟩ := generateT_pages env bd bc sd dd lc es p hp
    refine ⟨f, o, ?_⟩
    simp only [generateT] at hfo
    rcases List.mem_append.mp hfo with h1 | h2
    · exact h1
    · simp at h2

/-- Witness for `claim_C1_templates_after_subtree` at the nested
concrete tree. -/
theorem claim_C1_witness :
    ∃ pages t,
      generate envC "_dist" {} "content" "_dist" {} projectsTreeNoDist
        = .ok (pages, t ++ [Event.renderTemplates "content" "_dist"
            (dirCurrentConfig {} {} (hasIndexMd projectsTreeNoDist) "_dist") pages])
      ∧ ∀ p ∈ pages, ∃ f o, Event.writePage f o p ∈ t :=
  claim_C1_templates_after_subtree envC "_dist" {} "content" "_dist" {} projectsTreeNoDist

/-- C2: the page list of a directory visit is exactly one page per own
content file, in listing order, followed by the page lists of the
recursive calls on each subdirectory, concatenated in listing order;
being an equation of a pure function of the listing, the result is
deterministic for a fixed listing order. -/
theorem claim_C2_page_order (env : Env) (bd : String) (bc : PageConfig) (sd dd : String)
    (lc : LocalConfig) (es : FsListing) :
    ∃ evs,
      generate env bd bc sd dd lc es
        = .ok ((contentFileEntries es).map (fun x =>
              (renderContentFileT env bd
                { dirCurrentConfig bc lc (hasIndexMd es) dd with
                    filename := x.1, source := pathJoin sd x.1 }
                (overriddenDest bd dd (dirCurrentConfig bc lc (hasIndexMd es) dd)
                  (hasIndexMd es))
                x.2.1 x.2.2).1)
            ++ ((subDirectoryEntries es).map (fun x =>
              (generateT env bd (dirCurrentConfig bc lc (hasIndexMd es) dd)
                (pathJoin sd x.1) (pathJoin dd x.1) x.2.1 x.2.2).1)).flatten,
          evs) := by
  refine ⟨(generateT env bd bc sd dd lc es).2, ?_⟩
  rw [generate_ok]
  congr 1
  refine Prod.ext ?_ rfl
  show (generateT env bd bc sd dd lc es).1 = _
  have h1 : (generateT env bd bc sd dd lc es).1
      = (processContentListT env bd sd
          (overriddenDest bd dd (dirCurrentConfig bc lc (hasIndexMd es) dd)
            (hasIndexMd es))
          (dirCurrentConfig bc lc (hasIndexMd es) dd) (contentFileEntries es)).1
        ++ (generateSubdirsT env bd (dirCurrentConfig bc lc (hasIndexMd es) dd)
            sd dd es).1 := rfl
  rw [h1, processContentListT_map, generateSubdirsT_map]

/-- Witness for `claim_C2_page_order` at the concrete package tree. -/
theorem claim_C2_witness :
    ∃ evs,
      generate envC "_dist" {} "content" "_dist" {} packageAboutTree
        = .ok ((contentFileEntries packageAboutTree).map (fun x =>
              (renderContentFileT envC "_dist"
                { dirCurrentConfig {} {} (hasIndexMd packageAboutTree) "_dist" with
                    filename := x.1, source := pathJoin "content" x.1 }
                (overriddenDest "_dist" "_dist"
                  (dirCurrentConfig {} {} (hasIndexMd packageAboutTree) "_dist")
                  (hasIndexMd packageAboutTree))
                x.2.1 x.2.2).1)
            ++ ((subDirectoryEntries packageAboutTree).map (fun x =>
              (generateT envC "_dist"
                (dirCurrentConfig {} {} (hasIndexMd packageAboutTree) "_dist")
                (pathJoin "content" x.1) (pathJoin "_dist" x.1) x.2.1 x.2.2).1)).flatten,
          evs) :=
  claim_C2_page_order envC "_dist" {} "content" "_dist" {} packageAboutTree

theorem generateT_two_dirs (env : Env) (bd : String) (bc : PageConfig) (sd dd : String)
    (lc : LocalConfig) (nA : String) (cA : LocalConfig) (sA : FsListing)
    (nB : String) (cB : LocalConfig) (sB : FsListing)
    (hA : (nA == "index.md") = false) (hB : (nB == "index.md") = false) :
    generateT env bd bc sd dd lc (.dir nA cA sA (.dir nB cB sB .nil))
      = ((generateT env bd (assignLocal bc lc) (pathJoin sd nA) (pathJoin dd nA) cA sA).1
          ++ (generateT env bd (assignLocal bc lc) (pathJoin sd nB) (pathJoin dd nB) cB sB).1,
        (generateT env bd (assignLocal bc lc) (pathJoin sd nA) (pathJoin dd nA) cA sA).2
          ++ (generateT env bd (assignLocal bc lc) (pathJoin sd nB) (pathJoin dd nB) cB sB).2
          ++ [Event.renderTemplates sd dd (assignLocal bc lc)
              ((generateT env bd (assignLocal bc lc) (pathJoin sd nA) (pathJoin dd nA) cA sA).1
                ++ (generateT env bd (assignLocal bc lc) (pathJoin sd nB) (pathJoin dd nB) cB sB).1)]) := by
  have hIdx : hasIndexMd (.dir nA cA sA (.dir nB cB sB .nil)) = false := by
    simp [hasIndexMd, hA, hB]
  simp only [generateT, hIdx, dirCurrentConfig, Bool.false_eq_true, if_false,
    generateSubdirsT_dir, generateSubdirsT, processContentListT, contentFileEntries,
    processAssetFiles]
  simp

/-- C6: configuration inheritance is strictly top-down.  For a parent
directory with two subdirectories `nA` and `nB`, each child recursion
receives exactly the parent's merged configuration
(`assignLocal bc lc`), computed before any recursion; the parent's own
template call also receives that configuration, unchanged by the
children; and the pages contributed by sibling `nB` are given by a
term in which `nA`'s local configuration and subtree do not occur at
all - made explicit by the second conjunct, which shows the `nB`
segment of the result is the same for *every* choice of `nA`'s
configuration and subtree.  The third conjunct states sibling
isolation in general: in any directory, for any inherited
configuration, the pages contributed by the siblings processed after
a subdirectory `nA` are exactly those of the listing without `nA`,
computed from the same inherited configuration, whatever `nA`'s local
configuration and subtree are. -/
theorem claim_C6_inheritance_isolation (env : Env) (bd : String) (bc : PageConfig)
    (sd dd : String) (lc : LocalConfig) (nA : String) (cA : LocalConfig) (sA : FsListing)
    (nB : String) (cB : LocalConfig) (sB : FsListing)
    (hA : (nA == "index.md") = false) (hB : (nB == "index.md") = false) :
    generate env bd bc sd dd lc (.dir nA cA sA (.dir nB cB sB .nil))
      = .ok ((generateT env bd (assignLocal bc lc) (pathJoin sd nA) (pathJoin dd nA) cA sA).1
          ++ (generateT env bd (assignLocal bc lc) (pathJoin sd nB) (pathJoin dd nB) cB sB).1,
        (generateT env bd (assignLocal bc lc) (pathJoin sd nA) (pathJoin dd nA) cA sA).2
          ++ (generateT env bd (assignLocal bc lc) (pathJoin sd nB) (pathJoin dd nB) cB sB).2
          ++ [Event.renderTemplates sd dd (assignLocal bc lc)
              ((generateT env bd (assignLocal bc lc) (pathJoin sd nA) (pathJoin dd nA) cA sA).1
                ++ (generateT env bd (assignLocal bc lc) (pathJoin sd nB) (pathJoin dd nB) cB sB).1)])
    ∧ (∀ (cA' : LocalConfig) (sA' : FsListing),
        ((generateT env bd bc sd dd lc (.dir nA cA' sA' (.dir nB cB sB .nil))).1).drop
            ((generateT env bd (assignLocal bc lc)
              (pathJoin sd nA) (pathJoin dd nA) cA' sA').1).length
          = (generateT env bd (assignLocal bc lc) (pathJoin sd nB) (pathJoin dd nB) cB sB).1)
    ∧ ∀ (cfg : PageConfig) (sd2 dd2 : String) (cA' : LocalConfig)
        (sA' rest : FsListing),
        ((generateSubdirsT env bd cfg sd2 dd2 (.dir nA cA' sA' rest)).1).drop
            ((generateT env bd cfg (pathJoin sd2 nA) (pathJoin dd2 nA) cA' sA').1).length
          = (generateSubdirsT env bd cfg sd2 dd2 rest).1 := by
  refine ⟨?_, ?_, ?_⟩
  · rw [generate_ok, generateT_two_dirs env bd bc sd dd lc nA cA sA nB cB sB hA hB]
  · intro cA' sA'
    rw [congrArg Prod.fst (generateT_two_dirs env bd bc sd dd lc nA cA' sA' nB cB sB hA hB)]
    exact List.drop_left _ _
  · intro cfg sd2 dd2 cA' sA' rest
    rw [congrArg Prod.fst (generateSubdirsT_dir env bd cfg sd2 dd2 nA cA' sA' rest)]
    exact List.drop_left _ _

/-- Witness for `claim_C6_inheritance_isolation` at two concrete
sibling directories with different local configurations. -/
theorem claim_C6_witness :
    generate envC "_dist" {} "content" "_dist" {}
        (.dir "alpha" { title := some "A" } (.file "a.md" {} "x" .nil)
          (.dir "beta" {} (.file "b.md" {} "y" .nil) .nil))
      = .ok ((generateT envC "_dist" (assignLocal {} {})
            (pathJoin "content" "alpha") (pathJoin "_dist" "alpha")
            { title := some "A" } (.file "a.md" {} "x" .nil)).1
          ++ (generateT envC "_dist" (assignLocal {} {})
            (pathJoin "content" "beta") (pathJoin "_dist" "beta")
            {} (.file "b.md" {} "y" .nil)).1,
        (generateT envC "_dist" (assignLocal {} {})
            (pathJoin "content" "alpha") (pathJoin "_dist" "alpha")
            { title := some "A" } (.file "a.md" {} "x" .nil)).2
          ++ (generateT envC "_dist" (assignLocal {} {})
            (pathJoin "content" "beta") (pathJoin "_dist" "beta")
            {} (.file "b.md" {} "y" .nil)).2
          ++ [Event.renderTemplates "content" "_dist" (assignLocal {} {})
              ((generateT envC "_dist" (assignLocal {} {})
                (pathJoin "content" "alpha") (pathJoin "_dist" "alpha")
                { title := some "A" } (.file "a.md" {} "x" .nil)).1
                ++ (generateT envC "_dist" (assignLocal {} {})
                  (pathJoin "content" "beta") (pathJoin "_dist" "beta")
                  {} (.file "b.md" {} "y" .nil)).1)]) :=
  (claim_C6_inheritance_isolation envC "_dist" {} "content" "_dist" {}
    "alpha" { title := some "A" } (.file "a.md" {} "x" .nil)
    "beta" {} (.file "b.md" {} "y" .nil) (by decide) (by decide)).1

theorem deriveDateSlug_slug_of_truthy (pc : PageConfig) (h : truthy pc.slug = true) :
    (deriveDateSlug pc).slug = pc.slug := by
  rcases hd : truthy pc.date with _ | _ <;> simp [deriveDateSlug, h, hd]

theorem deriveDateSlug_slug_of_falsy (pc : PageConfig) (hs : truthy pc.slug = false)
    (hp : truthy pc.permalink = false) :
    (deriveDateSlug pc).slug = some (dateSlugMatch (stripExtension pc.filename)).2 := by
  rcases hd : truthy pc.date with _ | _ <;> simp [deriveDateSlug, hs, hp, hd]

theorem renderStagePath_path_pkg (bd : String) (pc : PageConfig) (ad : String)
    (hfn : pc.filename = "index.md") :
    (renderStagePath bd pc ad).path = stripLeadingSlash (replaceFirst ad bd "") := by
  simp only [renderStagePath, hfn]
  rfl

theorem renderStagePath_path_loose (bd : String) (pc : PageConfig) (ad : String)
    (hfn : (pc.filename == "index.md") = false) :
    (renderStagePath bd pc ad).path
      = stripLeadingSlash (replaceFirst
          (pathJoin ad ((deriveDateSlug pc).slug.getD "")) bd "") := by
  simp only [renderStagePath, hfn, Bool.not_false, if_true]
  split_ifs <;> rfl

/-- C4 amended, schematic over all content-package directories: in a
directory whose listing holds `index.md` and a loose `about.md`, the
`index.md` page's output path is the site-relative form of the
directory's resolved destination itself (no extra slug segment), while
the `about.md` page renders into a subdirectory named by the
*directory's* derived slug - `<resolved-destination>/<directory-derived-slug>` -
not `about`, because the package classification seeds the (truthy)
slug on the configuration every sibling file copies; `about.md`
produces `<resolved-destination>/about` in a directory that is not a
content package (when the resolved configuration declares neither a
slug nor the `permalink` alias). -/
theorem claim_C4_amended :
    (∀ (env : Env) (bd : String) (bc : PageConfig) (sd dd : String) (lc : LocalConfig)
        (fmI : FrontMatter) (bI : String) (fmA : FrontMatter) (bA : String),
      truthy (some (dateSlugMatch (basename dd)).2) = true →
      ∃ pI pA evs,
        generate env bd bc sd dd lc
            (.file "index.md" fmI bI (.file "about.md" fmA bA .nil))
          = .ok ([pI, pA], evs)
        ∧ pI.path = stripLeadingSlash (replaceFirst
            (overriddenDest bd dd (dirCurrentConfig bc lc true dd) true) bd "")
        ∧ pA.path = stripLeadingSlash (replaceFirst
            (pathJoin (overriddenDest bd dd (dirCurrentConfig bc lc true dd) true)
              (dateSlugMatch (basename dd)).2) bd ""))
    ∧ (∀ (env : Env) (bd : String) (bc : PageConfig) (sd dd : String) (lc : LocalConfig)
        (fmA : FrontMatter) (bA : String),
      truthy (assignLocal bc lc).slug = false →
      truthy (assignLocal bc lc).permalink = false →
      ∃ pA evs,
        generate env bd bc sd dd lc (.file "about.md" fmA bA .nil) = .ok ([pA], evs)
        ∧ pA.path = stripLeadingSlash (replaceFirst
            (pathJoin (overriddenDest bd dd (assignLocal bc lc) false) "about") bd "")) := by
  constructor
  · intro env bd bc sd dd lc fmI bI fmA bA hslug
    refine ⟨(renderContentFileT env bd
        { (dirCurrentConfig bc lc true dd) with
          filename := "index.md"
          source := pathJoin sd "index.md" }
        (overriddenDest bd dd (dirCurrentConfig bc lc true dd) true) fmI bI).1,
      (renderContentFileT env bd
        { (dirCurrentConfig bc lc true dd) with
          filename := "about.md"
          source := pathJoin sd "about.md" }
        (overriddenDest bd dd (dirCurrentConfig bc lc true dd) true) fmA bA).1,
      (generateT env bd bc sd dd lc
        (.file "index.md" fmI bI (.file "about.md" fmA bA .nil))).2, ?_, ?_, ?_⟩
    · rw [generate_ok]
      rfl
    · rw [(renderContentFileT_proj env bd
          { (dirCurrentConfig bc lc true dd) with
            filename := "index.md"
            source := pathJoin sd "index.md" }
          (overriddenDest bd dd (dirCurrentConfig bc lc true dd) true) fmI bI).2,
        renderStagePath_path_pkg _ _ _ rfl]
    · rw [(renderContentFileT_proj env bd
          { (dirCurrentConfig bc lc true dd) with
            filename := "about.md"
            source := pathJoin sd "about.md" }
          (overriddenDest bd dd (dirCurrentConfig bc lc true dd) true) fmA bA).2,
        renderStagePath_path_loose bd
          { (dirCurrentConfig bc lc true dd) with
            filename := "about.md"
            source := pathJoin sd "about.md" }
          (overriddenDest bd dd (dirCurrentConfig bc lc true dd) true) rfl,
        deriveDateSlug_slug_of_truthy
          { (dirCurrentConfig bc lc true dd) with
            filename := "about.md"
            source := pathJoin sd "about.md" } hslug]
      rfl
  · intro env bd bc sd dd lc fmA bA hs hp
    refine ⟨(renderContentFileT env bd
        { (assignLocal bc lc) with
          filename := "about.md"
          source := pathJoin sd "about.md" }
        (overriddenDest bd dd (assignLocal bc lc) false) fmA bA).1,
      (generateT env bd bc sd dd lc (.file "about.md" fmA bA .nil)).2, ?_, ?_⟩
    · rw [generate_ok]
      rfl
    · rw [(renderContentFileT_proj env bd
          { (assignLocal bc lc) with
            filename := "about.md"
            source := pathJoin sd "about.md" }
          (overriddenDest bd dd (assignLocal bc lc) false) fmA bA).2,
        renderStagePath_path_loose bd
          { (assignLocal bc lc) with
            filename := "about.md"
            source := pathJoin sd "about.md" }
          (overriddenDest bd dd (assignLocal bc lc) false) rfl,
        deriveDateSlug_slug_of_falsy
          { (assignLocal bc lc) with
            filename := "about.md"
            source := pathJoin sd "about.md" } hs hp]
      rfl

/-- Witness for `claim_C4_amended` at a non-degenerate package
directory `2023-09-01-widget` (derived slug `widget`, distinct from
both the directory name and `about`) and at a plain `docs` directory. -/
theorem claim_C4_witness :
    (∃ pI pA evs,
      generate envC "_dist" {} "content/2023-09-01-widget" "_dist/2023-09-01-widget" {}
          (.file "index.md" {} "hi" (.file "about.md" {} "hi" .nil))
        = .ok ([pI, pA], evs)
      ∧ pI.path = stripLeadingSlash (replaceFirst
          (overriddenDest "_dist" "_dist/2023-09-01-widget"
            (dirCurrentConfig {} {} true "_dist/2023-09-01-widget") true) "_dist" "")
      ∧ pA.path = stripLeadingSlash (replaceFirst
          (pathJoin (overriddenDest "_dist" "_dist/2023-09-01-widget"
              (dirCurrentConfig {} {} true "_dist/2023-09-01-widget") true)
            (dateSlugMatch (basename "_dist/2023-09-01-widget")).2) "_dist" ""))
    ∧ (∃ pA evs,
      generate envC "_dist" {} "content/docs" "_dist/docs" {}
          (.file "about.md" {} "hi" .nil)
        = .ok ([pA], evs)
      ∧ pA.path = stripLeadingSlash (replaceFirst
          (pathJoin (overriddenDest "_dist" "_dist/docs" (assignLocal {} {}) false)
            "about") "_dist" "")) :=
  ⟨claim_C4_amended.1 envC "_dist" {} "content/2023-09-01-widget" "_dist/2023-09-01-widget"
      {} {} "hi" {} "hi" (by decide),
    claim_C4_amended.2 envC "_dist" {} "content/docs" "_dist/docs" {} {} "hi"
      (by decide) (by decide)⟩

